import Mathlib

/-!
# Verification of the GigaR1_AdvancedAnalog acquisition core

Shallow embedding of the library's ADC engine (`AdvancedADC.cpp` /
`AdvancedADC.h`): the sample-buffer pool, the DMA double-buffering
completion handler, the `begin`/`start`/`stop`/`end` state machine of a
single ADC unit, and the dual-ADC synchronizer.

The `DMAPool`/`DMABuffer` layer of this library is not among the provided
source files (only its callers are), so queue and buffer behaviour is
modelled from the specification (§3, §4.1): fixed set of buffers, a free
queue and a ready queue, O(1) pop-head/push-tail moves, flags set only by
the engine.  Everything else is translated from the source.
-/

set_option maxRecDepth 2048

namespace AdvancedAnalog

/-- Modelled from the spec: a `DMABuffer<Sample>` — identity (`bid`),
geometry (`n_samples` per channel, `n_channels`), the DISCONTINUOUS and
INTERLEAVED flag bits, and the completion timestamp.  The sample payload
itself is not modelled (it is written by hardware). -/
structure Buf where
  bid : Nat
  n_channels : Nat
  n_samples : Nat
  intrlvd : Bool
  discont : Bool
  tstamp : Nat
deriving Repr, DecidableEq

/-- `SampleBuffer::channels()`. -/
def Buf.channels (b : Buf) : Nat := b.n_channels

/-- `SampleBuffer::size()`: total interleaved sample count
(samples-per-channel times channel count). -/
def Buf.size (b : Buf) : Nat := b.n_samples * b.n_channels

/-- Modelled from the spec (§4.1): a `DMAPool<Sample>` — a free queue and
a ready queue of sample buffers (head = front of the queue). -/
structure DMAPool where
  freeQ : List Buf
  readyQ : List Buf
deriving Repr, DecidableEq

/-- A fresh buffer as created at pool construction: no flags, zero
timestamp. -/
def mkBuf (i ns nc : Nat) : Buf :=
  { bid := i, n_channels := nc, n_samples := ns, intrlvd := false, discont := false, tstamp := 0 }

/-- Modelled from the spec: `DMAPool(n_samples, n_channels, n_buffers)` —
all `n_buffers` buffers start in the free queue, ready queue empty. -/
def mkPool (ns nc nb : Nat) : DMAPool :=
  { freeQ := (List.range nb).map (fun i => mkBuf i ns nc), readyQ := [] }

/-- Modelled from the spec: `pool->writable()` — the free queue is
non-empty. -/
def DMAPool.writable (p : DMAPool) : Bool := !p.freeQ.isEmpty

/-- Modelled from the spec: `pool->readable()` — the ready queue is
non-empty. -/
def DMAPool.readable (p : DMAPool) : Bool := !p.readyQ.isEmpty

/-- Modelled from the spec: `pool->alloc(DMA_BUFFER_WRITE)` — pop the head
of the free queue (`none` when empty). -/
def DMAPool.allocWrite (p : DMAPool) : Option Buf × DMAPool :=
  match p.freeQ with
  | [] => (none, p)
  | b :: rest => (some b, { p with freeQ := rest })

/-- Modelled from the spec: `pool->alloc(DMA_BUFFER_READ)` — pop the head
of the ready queue (`none` when empty). -/
def DMAPool.allocRead (p : DMAPool) : Option Buf × DMAPool :=
  match p.readyQ with
  | [] => (none, p)
  | b :: rest => (some b, { p with readyQ := rest })

/-- Modelled from the spec: releasing a write-armed buffer publishes it at
the tail of the ready queue. -/
def DMAPool.publish (p : DMAPool) (b : Buf) : DMAPool :=
  { p with readyQ := p.readyQ ++ [b] }

/-- Modelled from the spec: releasing a consumed buffer returns it to the
tail of the free queue. -/
def DMAPool.releaseToFree (p : DMAPool) (b : Buf) : DMAPool :=
  { p with freeQ := p.freeQ ++ [b] }

/-- Modelled from the spec: `pool->flush()` — move every buffer of the
ready queue back to the free queue, discarding its data. -/
def DMAPool.flushQ (p : DMAPool) : DMAPool :=
  { freeQ := p.freeQ ++ p.readyQ, readyQ := [] }

/-- `adc_descr_t`: per-unit descriptor — the bound buffer pool (null when
the unit is free), the two DMA double-buffer slots `dmabuf[0]`,
`dmabuf[1]`, and whether the pacing timer is running.  The register-level
HAL handles are external collaborators and not part of the state. -/
structure AdcDescr where
  pool : Option DMAPool
  buf0 : Option Buf
  buf1 : Option Buf
  running : Bool
deriving Repr, DecidableEq

/-- `descr->dmabuf[ct]` with the slot index as a `Bool`. -/
def AdcDescr.slot (d : AdcDescr) (i : Bool) : Option Buf :=
  if i then d.buf1 else d.buf0

/-- Assignment to `descr->dmabuf[ct]`. -/
def AdcDescr.setSlot (d : AdcDescr) (i : Bool) (b : Option Buf) : AdcDescr :=
  if i then { d with buf1 := b } else { d with buf0 := b }

/-- A descriptor as statically initialized in `adc_descr_all`: no pool, no
DMA buffers. -/
def freeDescr : AdcDescr :=
  { pool := none, buf0 := none, buf1 := none, running := false }

/-- Observable steps taken by the completion handler, in program order:
timestamping, cache maintenance (`invalidate()` / `flush()` on a
`DMABuffer`, the latter modelled from the spec since the handler itself
never calls it), queue moves, flag writes and the final
`hal_dma_update_memory` retargeting. -/
inductive Action where
  | tstampA (bid : Nat)
  | cacheInvalidate (bid : Nat)
  | cacheFlush (bid : Nat)
  | publishA (bid : Nat)
  | allocWriteA (bid : Nat)
  | setIntrlvd (bid : Nat)
  | setDiscont (bid : Nat)
  | dmaUpdateMemory (bid : Nat)
deriving Repr, DecidableEq

/-- `HAL_ADC_ConvCpltCallback`, the interrupt-context completion handler.
`ctRaw` is the value of `hal_dma_get_ct` (the hardware's current-target
bit; the finished slot is its negation), `now` the `us_ticker_read` tick.
Returns the updated descriptor and the trace of observable actions, in
the order the source performs them.  The source dereferences `descr->pool`
and `descr->dmabuf[ct]` unconditionally; the handler only ever fires on a
configured armed engine, so the unreachable null cases return the state
unchanged. -/
def HAL_ADC_ConvCpltCallback (ctRaw : Bool) (now : Nat) (d : AdcDescr) :
    AdcDescr × List Action :=
  let ct := !ctRaw
  match d.pool, d.slot ct with
  | some p, some b =>
    let b := { b with tstamp := now }
    match p.freeQ with
    | nb :: restF =>
      -- pool->writable(): invalidate cached data, move the finished
      -- buffer to the ready queue, allocate a new free buffer, and flag
      -- it interleaved when sampling more than one channel.
      let p' : DMAPool := { freeQ := restF, readyQ := p.readyQ ++ [b] }
      let flagged := nb.channels > 1
      let nb' := if flagged then { nb with intrlvd := true } else nb
      ({ d.setSlot ct (some nb') with pool := some p' },
        [Action.tstampA b.bid, Action.cacheInvalidate b.bid, Action.publishA b.bid,
          Action.allocWriteA nb.bid]
        ++ (if flagged then [Action.setIntrlvd nb.bid] else [])
        ++ [Action.dmaUpdateMemory nb'.bid])
    | [] =>
      -- Free queue exhausted: set DISCONTINUOUS and leave the buffer
      -- armed in place; the DMA target is reprogrammed to the same
      -- buffer.
      let b' := { b with discont := true }
      (d.setSlot ct (some b'),
        [Action.tstampA b.bid, Action.setDiscont b.bid, Action.dmaUpdateMemory b'.bid])
  | _, _ => (d, [])

/-- The fixed table `adc_descr_all` of the three physical ADC unit
descriptors (index `i` is unit `i+1`). -/
structure DescrTable where
  a0 : AdcDescr
  a1 : AdcDescr
  a2 : AdcDescr
deriving Repr, DecidableEq

/-- `adc_descr_all[i]`. -/
def DescrTable.get (t : DescrTable) : Fin 3 → AdcDescr
  | ⟨0, _⟩ => t.a0
  | ⟨1, _⟩ => t.a1
  | ⟨2, _⟩ => t.a2

/-- Update of `adc_descr_all[i]`. -/
def DescrTable.set (t : DescrTable) : Fin 3 → AdcDescr → DescrTable
  | ⟨0, _⟩, d => { t with a0 := d }
  | ⟨1, _⟩, d => { t with a1 := d }
  | ⟨2, _⟩, d => { t with a2 := d }

/-- The table as statically initialized: every unit free. -/
def initTable : DescrTable :=
  { a0 := freeDescr, a1 := freeDescr, a2 := freeDescr }

/-- The `AdvancedADC` object: channel pin list (its length is
`n_channels`), the bound descriptor (`descr`, an index into
`adc_descr_all`, `none` for null) and the explicitly requested unit
(`adc_index`, `none` for -1). -/
structure AdvADC where
  adc_pins : List Nat
  descr : Option (Fin 3)
  adc_index : Option (Fin 3)
deriving Repr, DecidableEq

/-- `AdvancedADC::channels()`. -/
def AdvADC.channels (o : AdvADC) : Nat := o.adc_pins.length

/-- `AdvancedADC::id()`: 1-based unit number, or -1 when unbound. -/
def AdvADC.id (o : AdvADC) : Int :=
  match o.descr with
  | some u => (u : Nat) + 1
  | none => -1

/-- External collaborators of `begin`/`start` (excluded from the core by
the spec): the pin-to-unit ADC map (`pinmap_peripheral` over
`PinMap_ADC`, `none` = `NC`) and the results of the register-level HAL
configuration calls. -/
structure Env where
  pinmapADC : Nat → Option (Fin 3)
  halDmaOk : Bool
  halAdcOk : Bool
  halStartDmaOk : Bool
  halTimCfgOk : Bool
  halTimStartOk : Bool
  poolNewOk : Bool

/-- `ADC_PIN_ALT_MASK = ALT0 | ALT1` (mbed STM32 pin-name alternate
bits). -/
def ADC_PIN_ALT_MASK : Nat := 0x300

/-- `adc_pin_alt = {0, ALT0, ALT1}`: the alternate-routing offsets tried
in order. -/
def adc_pin_alt : List Nat := [0, 0x100, 0x200]

/-- `pin & ~ADC_PIN_ALT_MASK`: clear the ALTx bits of a pin name. -/
def clearAlt (p : Nat) : Nat := p - (p &&& ADC_PIN_ALT_MASK)

/-- The per-pin routing loop shared by `begin`'s three scans: try each
alternate offset in order; stop at the first unmapped candidate
(`pinmap_find_peripheral == NC` breaks the loop); succeed with the
concrete alternate pin when it maps to the wanted unit `u`. -/
def routeAlt (env : Env) (u : Fin 3) (p : Nat) : List Nat → Option Nat
  | [] => none
  | a :: rest =>
    let pin := p ||| a
    match env.pinmapADC pin with
    | none => none
    | some w => if w = u then some pin else routeAlt env u p rest

/-- The auto-selection scan of `begin` (no explicit `adc_index`): for each
alternate of the first pin, stop if unmapped, otherwise take the unit the
pin maps to provided that unit's descriptor is free (the inner loop over
`adc_descr_all` matches exactly the unit the pin maps to, and only when
its pool is null). -/
def findAltAuto (env : Env) (t : DescrTable) (p : Nat) : List Nat → Option (Fin 3 × Nat)
  | [] => none
  | a :: rest =>
    let pin := p ||| a
    match env.pinmapADC pin with
    | none => none
    | some w => if (t.get w).pool = none then some (w, pin) else findAltAuto env t p rest

/-- The secondary-channel loop of `begin`: route every remaining pin to
the already selected unit, recording the updated (alternate) pin on
success; returns the updated pin list and the number of pins that routed
(`ch_init - 1`). -/
def routeRest (env : Env) (u : Fin 3) : List Nat → List Nat × Nat
  | [] => ([], 0)
  | p :: ps =>
    let r := routeAlt env u p adc_pin_alt
    let (ps', c) := routeRest env u ps
    match r with
    | some pin => (pin :: ps', c + 1)
    | none => (p :: ps', c)

/-- Result of `AdvancedADC::begin`: the boolean result, the updated
object, and the updated descriptor table. -/
structure BeginResult where
  ok : Bool
  obj : AdvADC
  table : DescrTable
deriving Repr, DecidableEq

/-- The instance-resolution phase of `begin` applied to the (cleared)
first pin: the explicit-`adc_index` path (busy unit fails at once,
otherwise the alternate-pin scan must reach that unit) or the
first-free-unit scan.  Returns the selected unit with its concrete pin,
and the value left in `descr` on failure (the busy-unit early return
keeps `descr` pointing at the requested unit; every other failure
reaches `instance == ADC_NP` where the source nulls it). -/
def resolveInstance (env : Env) (t : DescrTable) (idx : Option (Fin 3)) (p0 : Nat) :
    Option (Fin 3 × Nat) × Option (Fin 3) :=
  match idx with
  | some u =>
    if (t.get u).pool ≠ none then (none, some u)
    else
      match routeAlt env u p0 adc_pin_alt with
      | some pin => (some (u, pin), some u)
      | none => (none, none)
  | none => (findAltAuto env t p0 adc_pin_alt, none)

/-- `AdvancedADC::start(sample_rate)`: fails when unconfigured
(`descr == nullptr || descr->pool == nullptr`); otherwise stops any
ongoing conversion, restarts the ADC DMA, re-enables double-buffer mode,
configures and starts the pacing timer.  Only the timer-running bit is
engine state; the HAL calls are environment results. -/
def AdvADC.start (env : Env) (t : DescrTable) (o : AdvADC) : Bool × DescrTable :=
  match o.descr with
  | none => (false, t)
  | some u =>
    let d := t.get u
    if d.pool = none then (false, t)
    else
      -- adc_descr_stop: halt the timer and the ADC DMA.
      let d := { d with running := false }
      if !env.halStartDmaOk then (false, t.set u d)
      else if !env.halTimCfgOk then (false, t.set u d)
      else if !env.halTimStartOk then (false, t.set u d)
      else (true, t.set u { d with running := true })

/-- `AdvancedADC::begin(resolution, sample_rate, n_samples, n_buffers,
start, sample_time)`, translated phase by phase from the source: sanity
checks, ALT-bit clearing, unit resolution (explicit `adc_index` or
first-free-unit scan on the first pin), secondary-channel routing, pool
allocation, arming of the two DMA buffers, HAL DMA and ADC
configuration, and the optional immediate `start`. -/
def AdvADC.begin (env : Env) (t : DescrTable) (o : AdvADC)
    (resolution : Nat) (n_samples n_buffers : Nat) (startNow : Bool) : BeginResult :=
  -- Sanity checks: resolution in range, not already owning a pool.
  if resolution ≥ 5 ∨ (∃ u, o.descr = some u ∧ (t.get u).pool ≠ none) then
    ⟨false, o, t⟩
  else
    -- Clear the ALTx bits from every pin name.
    let pins := o.adc_pins.map clearAlt
    match pins with
    | [] => ⟨false, { o with adc_pins := pins }, t⟩
    | p0 :: prest =>
      -- Resolve the unit and the (possibly alternate) first pin.
      match resolveInstance env t o.adc_index p0 with
      | (none, some u) =>
        -- Busy explicit unit: early return with `descr` still pointing
        -- at the requested unit.
        ⟨false, { o with adc_pins := pins, descr := some u }, t⟩
      | (none, none) =>
        -- `instance == ADC_NP`: the source nulls `descr` and fails.
        ⟨false, { o with adc_pins := pins, descr := none }, t⟩
      | (some (u, pin0), _) =>
        -- Route the remaining channels to the selected unit.
        let (prest', c) := routeRest env u prest
        let o' : AdvADC := { o with adc_pins := pin0 :: prest', descr := some u }
        if c + 1 < o'.adc_pins.length then ⟨false, o', t⟩
        else
          -- Allocate the DMA buffer pool.
          if !env.poolNewOk then ⟨false, o', t⟩
          else
            let p := mkPool n_samples o'.adc_pins.length n_buffers
            let (b0, p1) := p.allocWrite
            let (b1, p2) := p1.allocWrite
            let d : AdcDescr :=
              { pool := some p2, buf0 := b0, buf1 := b1, running := (t.get u).running }
            let t1 := t.set u d
            if !env.halDmaOk then ⟨false, o', t1⟩
            else if !env.halAdcOk then ⟨false, o', t1⟩
            else if startNow then
              ⟨(o'.start env t1).1, o', (o'.start env t1).2⟩
            else ⟨true, o', t1⟩

/-- `AdvancedADC::stop()`: fails when `descr == nullptr`; otherwise
`adc_descr_stop` halts the timer and the ADC DMA and the call returns
true, touching neither the pool nor the armed buffers. -/
def AdvADC.stop (t : DescrTable) (o : AdvADC) : Bool × DescrTable :=
  match o.descr with
  | none => (false, t)
  | some u => (true, t.set u { t.get u with running := false })

/-- `adc_descr_deinit`: stop the conversion, release both DMA buffers and
deallocate the pool. -/
def adc_descr_deinit (d : AdcDescr) : AdcDescr :=
  let _ := d
  { pool := none, buf0 := none, buf1 := none, running := false }

/-- `AdvancedADC::end()`: fails when `descr == nullptr`; otherwise
deinitializes the descriptor and clears the binding. -/
def AdvADC.endADC (t : DescrTable) (o : AdvADC) : Bool × AdvADC × DescrTable :=
  match o.descr with
  | none => (false, o, t)
  | some u => (true, { o with descr := none }, t.set u (adc_descr_deinit (t.get u)))

/-- `AdvancedADC::available()`: false when unconfigured, otherwise the
pool's readable test.  (With `descr` set but no pool bound the source
would dereference null; that state is unreachable through the public
sequences the theorems use, and is modelled as false.) -/
def AdvADC.available (t : DescrTable) (o : AdvADC) : Bool :=
  match o.descr with
  | none => false
  | some u =>
    match (t.get u).pool with
    | none => false
    | some p => p.readable

/-- Result of `AdvancedADC::read()`: the static `NULLBUF` returned
immediately when unconfigured, a ready buffer, or `blocked` — the
`__WFI` wait that does not return until a completion makes
`available()` true. -/
inductive ReadResult where
  | nullbuf
  | buffer (b : Buf)
  | blocked
deriving Repr, DecidableEq

/-- `AdvancedADC::read()`: when unconfigured, returns the static null
buffer immediately with no state change; when configured, waits until the
ready queue is non-empty and pops its head (`pool->alloc(DMA_BUFFER_READ)`). -/
def AdvADC.read (t : DescrTable) (o : AdvADC) : ReadResult × DescrTable :=
  match o.descr with
  | none => (ReadResult.nullbuf, t)
  | some u =>
    let d := t.get u
    match d.pool with
    | none => (ReadResult.blocked, t)
    | some p =>
      match p.readyQ with
      | [] => (ReadResult.blocked, t)
      | b :: rest =>
        (ReadResult.buffer b, t.set u { d with pool := some { p with readyQ := rest } })

/-- `AdvancedADC::clear()`: flush the pool's ready queue back to the free
queue; no-op when unconfigured. -/
def AdvADC.clearQ (t : DescrTable) (o : AdvADC) : DescrTable :=
  match o.descr with
  | none => t
  | some u =>
    let d := t.get u
    match d.pool with
    | none => t
    | some p => t.set u { d with pool := some p.flushQ }

/-- Result of `AdvancedADCDual::begin`: boolean result, the two updated
ADC objects, the table, and the dual-coupling mode bit. -/
structure DualBeginResult where
  ok : Bool
  adc1 : AdvADC
  adc2 : AdvADC
  table : DescrTable
  dualMode : Bool
deriving Repr, DecidableEq

/-- `AdvancedADCDual::begin`: requires matching channel counts, configures
both ADCs without auto-start, verifies the resolved pair is master unit 1
/ secondary unit 2 (calling only `stop()` — not `end()` — on rejection),
enables dual mode and starts the master alone. -/
def dualBegin (env : Env) (t : DescrTable) (dm : Bool) (a1 a2 : AdvADC)
    (resolution : Nat) (n_samples n_buffers : Nat) : DualBeginResult :=
  if a1.channels ≠ a2.channels then ⟨false, a1, a2, t, dm⟩
  else
    let r1 := a1.begin env t resolution n_samples n_buffers false
    if !r1.ok then ⟨false, r1.obj, a2, r1.table, dm⟩
    else
      let r2 := a2.begin env r1.table resolution n_samples n_buffers false
      if !r2.ok then
        -- adc1.stop(); fail — note stop, not end: the pool survives.
        let (_, t') := r1.obj.stop r2.table
        ⟨false, r1.obj, r2.obj, t', dm⟩
      else if r1.obj.id ≠ 1 ∨ r2.obj.id ≠ 2 then
        -- Wrong master/secondary pairing: stop both and fail; again the
        -- pools survive.
        let (_, t') := r1.obj.stop r2.table
        let (_, t'') := r2.obj.stop t'
        ⟨false, r1.obj, r2.obj, t'', dm⟩
      else
        -- hal_adc_enable_dual_mode(true), then start the master only.
        let (r, t') := r1.obj.start env r2.table
        ⟨r, r1.obj, r2.obj, t', true⟩

/-- Whether a handler action is the cache-flush of some buffer. -/
def isCacheFlush : Action → Bool
  | Action.cacheFlush _ => true
  | _ => false

/-! ## Helper lemmas -/

theorem slot_setSlot_same (d : AdcDescr) (i : Bool) (b : Option Buf) :
    (d.setSlot i b).slot i = b := by
  cases i <;> simp [AdcDescr.setSlot, AdcDescr.slot]

theorem slot_setSlot_other (d : AdcDescr) (i : Bool) (b : Option Buf) :
    (d.setSlot i b).slot (!i) = d.slot (!i) := by
  cases i <;> simp [AdcDescr.setSlot, AdcDescr.slot]

theorem pool_setSlot (d : AdcDescr) (i : Bool) (b : Option Buf) :
    (d.setSlot i b).pool = d.pool := by
  cases i <;> simp [AdcDescr.setSlot]

theorem get_set_self (t : DescrTable) (u : Fin 3) (d : AdcDescr) :
    (t.set u d).get u = d := by
  fin_cases u <;> simp [DescrTable.get, DescrTable.set]

theorem get_set_other (t : DescrTable) (u v : Fin 3) (d : AdcDescr) (h : v ≠ u) :
    (t.set u d).get v = t.get v := by
  fin_cases u <;> fin_cases v <;> simp_all [DescrTable.get, DescrTable.set]

/-- `stop` touches only the timer bit: the pool of every unit is
unchanged. -/
theorem stop_pool_eq (t : DescrTable) (o : AdvADC) (v : Fin 3) :
    ((o.stop t).2.get v).pool = (t.get v).pool := by
  unfold AdvADC.stop
  match h : o.descr with
  | none => simp
  | some u =>
    simp only
    by_cases hvu : v = u
    · subst hvu; rw [get_set_self]
    · rw [get_set_other _ _ _ _ hvu]

/-! ## Claim theorems -/

/-- **C1**: on every completion with the pool's free queue empty, the
handler publishes nothing (the pool — both queues — is unchanged), sets
the DISCONTINUOUS flag on the finished buffer which stays armed in the
same slot, leaves the other slot alone, and retargets the DMA at that
very buffer; the trace is the three bounded steps timestamp /
set-DISCONTINUOUS / retarget. -/
theorem c1_overflow_policy (ctRaw : Bool) (now : Nat) (d : AdcDescr)
    (p : DMAPool) (b : Buf) (hp : d.pool = some p) (hfree : p.freeQ = [])
    (hb : d.slot (!ctRaw) = some b) :
    (HAL_ADC_ConvCpltCallback ctRaw now d).1.pool = some p ∧
    (HAL_ADC_ConvCpltCallback ctRaw now d).1.slot (!ctRaw) =
      some { b with tstamp := now, discont := true } ∧
    (HAL_ADC_ConvCpltCallback ctRaw now d).1.slot ctRaw = d.slot ctRaw ∧
    (HAL_ADC_ConvCpltCallback ctRaw now d).2 =
      [Action.tstampA b.bid, Action.setDiscont b.bid, Action.dmaUpdateMemory b.bid] := by
  cases ctRaw <;>
    (unfold HAL_ADC_ConvCpltCallback; simp_all [AdcDescr.setSlot, AdcDescr.slot])

/-- Witness for C1 at a concrete overflow state. -/
theorem c1_overflow_policy_witness :
    (HAL_ADC_ConvCpltCallback true 7
        { pool := some { freeQ := [], readyQ := [] },
          buf0 := some (mkBuf 0 4 2), buf1 := some (mkBuf 1 4 2),
          running := true }).1.pool = some { freeQ := [], readyQ := [] } ∧
    (HAL_ADC_ConvCpltCallback true 7
        { pool := some { freeQ := [], readyQ := [] },
          buf0 := some (mkBuf 0 4 2), buf1 := some (mkBuf 1 4 2),
          running := true }).1.slot (!true) =
      some { mkBuf 0 4 2 with tstamp := 7, discont := true } ∧
    (HAL_ADC_ConvCpltCallback true 7
        { pool := some { freeQ := [], readyQ := [] },
          buf0 := some (mkBuf 0 4 2), buf1 := some (mkBuf 1 4 2),
          running := true }).1.slot true =
      AdcDescr.slot
        { pool := some { freeQ := [], readyQ := [] },
          buf0 := some (mkBuf 0 4 2), buf1 := some (mkBuf 1 4 2),
          running := true } true ∧
    (HAL_ADC_ConvCpltCallback true 7
        { pool := some { freeQ := [], readyQ := [] },
          buf0 := some (mkBuf 0 4 2), buf1 := some (mkBuf 1 4 2),
          running := true }).2 =
      [Action.tstampA 0, Action.setDiscont 0, Action.dmaUpdateMemory 0] :=
  c1_overflow_policy true 7 _ _ (mkBuf 0 4 2) rfl rfl rfl

/-! ## The concrete 3-channel / 50-samples / 8-buffer scenario (§8) -/

/-- Routing environment for the concrete scenario: three pins 10, 11, 12
all reachable on unit 1 (index 0), every HAL step succeeding. -/
def scEnv : Env :=
  { pinmapADC := fun p => if p = 10 ∨ p = 11 ∨ p = 12 then some 0 else none,
    halDmaOk := true, halAdcOk := true, halStartDmaOk := true,
    halTimCfgOk := true, halTimStartOk := true, poolNewOk := true }

/-- `AdvancedADC adc(p10, p11, p12)`: three channels, auto unit
selection. -/
def scObj : AdvADC := { adc_pins := [10, 11, 12], descr := none, adc_index := none }

/-- `adc.begin(AN_RESOLUTION_12, rate, 50, 8, false)` on a fresh table. -/
def scBegin : BeginResult := scObj.begin scEnv initTable 2 50 8 false

/-- Table after `adc.start(rate)`. -/
def scStarted : DescrTable := (scBegin.obj.start scEnv scBegin.table).2

/-- Descriptor and trace of the first completion (hardware reports
current target = slot 1, so slot 0 finished) at tick 111. -/
def scCplt1 : AdcDescr × List Action := HAL_ADC_ConvCpltCallback true 111 (scStarted.get 0)

/-- Table after the first completion. -/
def scAfterCplt1 : DescrTable := scStarted.set 0 scCplt1.1

/-- The first buffer the application reads. -/
def scFirstRead : ReadResult := (scBegin.obj.read scAfterCplt1).1

/-- The buffer value the first read returns in the scenario. -/
def scFirstBuf : Buf :=
  { bid := 0, n_channels := 3, n_samples := 50, intrlvd := false,
    discont := false, tstamp := 111 }

/-- **C2** counterexample: in the concrete 3-channel / 50-samples /
8-buffer scenario, the first buffer the application reads (after the
first completion publishes it) has `channels() = 3`, `size() = 150`,
DISCONTINUOUS clear — but its INTERLEAVED flag is *clear*, refuting the
claim that every published buffer carries INTERLEAVED: the handler sets
the flag on the buffer it newly arms, and the two buffers armed by
`begin` reach the ready queue unflagged. -/
theorem c2_first_read_interleaved_clear :
    scFirstRead = ReadResult.buffer scFirstBuf ∧
    scFirstBuf.intrlvd = false ∧ scFirstBuf.discont = false ∧
    scFirstBuf.channels = 3 ∧ scFirstBuf.size = 150 := by
  refine ⟨?_, rfl, rfl, rfl, rfl⟩
  decide

/-- **C2** (amended): on a completion with a non-empty free queue the
handler publishes the finished buffer carrying its *pre-existing* flags
(only the timestamp is stamped), and sets INTERLEAVED on the buffer it
newly arms from the free queue whenever `channel_count > 1`; hence
buffers armed by the completion path are INTERLEAVED when later
published, while the two buffers armed by `begin` — in particular the
first buffer read in the 3-channel / 50-samples / 8-buffer scenario,
which has `channels() = 3`, `size() = 150` and DISCONTINUOUS clear — are
published with INTERLEAVED clear. -/
theorem c2_interleaved_on_armed_buffer (ctRaw : Bool) (now : Nat) (d : AdcDescr)
    (p : DMAPool) (b nb : Buf) (restF : List Buf)
    (hp : d.pool = some p) (hb : d.slot (!ctRaw) = some b)
    (hfree : p.freeQ = nb :: restF) (hch : nb.channels > 1) :
    (HAL_ADC_ConvCpltCallback ctRaw now d).1.slot (!ctRaw) =
      some { nb with intrlvd := true } ∧
    (HAL_ADC_ConvCpltCallback ctRaw now d).1.pool =
      some { freeQ := restF, readyQ := p.readyQ ++ [{ b with tstamp := now }] } ∧
    scFirstRead = ReadResult.buffer scFirstBuf := by
  refine ⟨?_, ?_, by decide⟩ <;>
    cases ctRaw <;>
      (unfold HAL_ADC_ConvCpltCallback;
       simp_all [AdcDescr.setSlot, AdcDescr.slot])

/-- Witness for the amended C2 at a concrete completion. -/
theorem c2_interleaved_on_armed_buffer_witness :
    (HAL_ADC_ConvCpltCallback true 9
        { pool := some { freeQ := [mkBuf 2 4 2], readyQ := [] },
          buf0 := some (mkBuf 0 4 2), buf1 := some (mkBuf 1 4 2),
          running := true }).1.slot (!true) =
      some { (mkBuf 2 4 2) with intrlvd := true } ∧
    (HAL_ADC_ConvCpltCallback true 9
        { pool := some { freeQ := [mkBuf 2 4 2], readyQ := [] },
          buf0 := some (mkBuf 0 4 2), buf1 := some (mkBuf 1 4 2),
          running := true }).1.pool =
      some { freeQ := [], readyQ := [{ (mkBuf 0 4 2) with tstamp := 9 }] } ∧
    scFirstRead = ReadResult.buffer scFirstBuf :=
  c2_interleaved_on_armed_buffer true 9
    { pool := some { freeQ := [mkBuf 2 4 2], readyQ := [] },
      buf0 := some (mkBuf 0 4 2), buf1 := some (mkBuf 1 4 2),
      running := true }
    { freeQ := [mkBuf 2 4 2], readyQ := [] }
    (mkBuf 0 4 2) (mkBuf 2 4 2) [] rfl rfl rfl (by decide)

/-- **C6** counterexample: the trace of the scenario's first completion
(non-empty free queue) is exactly timestamp, invalidate, publish,
alloc-write, set-INTERLEAVED, DMA-retarget — it contains no cache flush
of the freshly popped buffer (or of anything), refuting the claim's
second half.  The invalidate-before-publish half does hold. -/
theorem c6_no_flush_on_armed_buffer :
    scCplt1.2 =
      [Action.tstampA 0, Action.cacheInvalidate 0, Action.publishA 0,
        Action.allocWriteA 2, Action.setIntrlvd 2, Action.dmaUpdateMemory 2] ∧
    scCplt1.2.all (fun a => !isCacheFlush a) = true := by
  constructor <;> decide

/-- **C6** (amended): on every completion with a non-empty free queue the
handler invalidates the finished buffer's cache state before publishing
it to the ready queue, and arms the freshly popped buffer directly — no
cache flush of any buffer occurs anywhere in the completion path. -/
theorem c6_invalidate_before_publish (ctRaw : Bool) (now : Nat) (d : AdcDescr)
    (p : DMAPool) (b nb : Buf) (restF : List Buf)
    (hp : d.pool = some p) (hb : d.slot (!ctRaw) = some b)
    (hfree : p.freeQ = nb :: restF) :
    (∃ l1 l2 l3, (HAL_ADC_ConvCpltCallback ctRaw now d).2 =
        l1 ++ Action.cacheInvalidate b.bid :: l2 ++ Action.publishA b.bid :: l3) ∧
    (HAL_ADC_ConvCpltCallback ctRaw now d).2.all (fun a => !isCacheFlush a) = true := by
  cases ctRaw <;>
    (unfold HAL_ADC_ConvCpltCallback
     simp_all [AdcDescr.slot]
     constructor
     · exact ⟨[Action.tstampA b.bid], [], _, rfl⟩
     · split <;> simp [isCacheFlush])

/-- Witness for the amended C6 at a concrete completion. -/
theorem c6_invalidate_before_publish_witness :
    (∃ l1 l2 l3, (HAL_ADC_ConvCpltCallback true 9
        { pool := some { freeQ := [mkBuf 2 4 2], readyQ := [] },
          buf0 := some (mkBuf 0 4 2), buf1 := some (mkBuf 1 4 2),
          running := true }).2 =
        l1 ++ Action.cacheInvalidate (mkBuf 0 4 2).bid :: l2 ++
          Action.publishA (mkBuf 0 4 2).bid :: l3) ∧
    (HAL_ADC_ConvCpltCallback true 9
        { pool := some { freeQ := [mkBuf 2 4 2], readyQ := [] },
          buf0 := some (mkBuf 0 4 2), buf1 := some (mkBuf 1 4 2),
          running := true }).2.all (fun a => !isCacheFlush a) = true :=
  c6_invalidate_before_publish true 9
    { pool := some { freeQ := [mkBuf 2 4 2], readyQ := [] },
      buf0 := some (mkBuf 0 4 2), buf1 := some (mkBuf 1 4 2),
      running := true }
    { freeQ := [mkBuf 2 4 2], readyQ := [] }
    (mkBuf 0 4 2) (mkBuf 2 4 2) [] rfl rfl rfl

/-- **C9**: on a configured engine, `stop()` returns true and only clears
the timer-running bit — the pool, both armed buffer slots and every other
unit's descriptor are untouched — and it is idempotent: calling it again
on the already-stopped engine returns true and changes nothing. -/
theorem c9_stop_frame (t : DescrTable) (o : AdvADC) (u : Fin 3) (p : DMAPool)
    (ho : o.descr = some u) (hp : (t.get u).pool = some p) :
    o.stop t = (true, t.set u { t.get u with running := false }) ∧
    ((o.stop t).2.get u).pool = (t.get u).pool ∧
    ((o.stop t).2.get u).buf0 = (t.get u).buf0 ∧
    ((o.stop t).2.get u).buf1 = (t.get u).buf1 ∧
    (∀ v, v ≠ u → (o.stop t).2.get v = t.get v) ∧
    o.stop ((o.stop t).2) = (true, (o.stop t).2) := by
  have hstop : o.stop t = (true, t.set u { t.get u with running := false }) := by
    unfold AdvADC.stop
    rw [ho]
  refine ⟨hstop, ?_, ?_, ?_, ?_, ?_⟩
  · rw [hstop, get_set_self]
  · rw [hstop, get_set_self]
  · rw [hstop, get_set_self]
  · intro v hv
    rw [hstop]
    exact get_set_other t u v _ hv
  · rw [hstop]
    unfold AdvADC.stop
    rw [ho]
    simp only [Prod.mk.injEq, true_and]
    rw [get_set_self]
    fin_cases u <;> simp [DescrTable.get, DescrTable.set]

/-- A concrete configured running descriptor used by witnesses. -/
def wRunDescr : AdcDescr :=
  { pool := some (mkPool 4 2 3), buf0 := some (mkBuf 0 4 2),
    buf1 := some (mkBuf 1 4 2), running := true }

/-- A concrete table with unit 2 (index 1) configured. -/
def wRunTable : DescrTable := initTable.set 1 wRunDescr

/-- Witness for C9 on a concrete configured table. -/
theorem c9_stop_frame_witness :
    AdvADC.stop wRunTable { adc_pins := [10, 11], descr := some 1, adc_index := some 1 } =
      (true, wRunTable.set 1 { wRunTable.get 1 with running := false }) :=
  (c9_stop_frame wRunTable
    { adc_pins := [10, 11], descr := some 1, adc_index := some 1 }
    1 (mkPool 4 2 3) rfl rfl).1

/-- **C10**: `read()` on an unconfigured engine returns the static null
buffer immediately with no state change; on a configured engine it
returns a buffer only once `available()` is true, and then exactly the
head of the ready queue (popping it); while the ready queue is empty the
call stays blocked in the `__WFI` wait instead of returning. -/
theorem c10_read (t : DescrTable) (o : AdvADC) (u : Fin 3) (p : DMAPool)
    (b : Buf) (rest : List Buf) :
    (o.descr = none → o.read t = (ReadResult.nullbuf, t)) ∧
    (o.descr = some u → (t.get u).pool = some p → p.readyQ = b :: rest →
      o.available t = true ∧
      o.read t = (ReadResult.buffer b,
        t.set u { t.get u with pool := some { p with readyQ := rest } })) ∧
    (o.descr = some u → (t.get u).pool = some p → p.readyQ = [] →
      o.available t = false ∧ (o.read t).1 = ReadResult.blocked) := by
  refine ⟨?_, ?_, ?_⟩
  · intro h
    unfold AdvADC.read
    rw [h]
  · intro h hp hr
    unfold AdvADC.read AdvADC.available
    rw [h]
    simp only [hp, hr, DMAPool.readable]
    simp
  · intro h hp hr
    unfold AdvADC.read AdvADC.available
    rw [h]
    simp only [hp, hr, DMAPool.readable]
    simp

/-- A concrete descriptor with one buffer in the ready queue. -/
def wReadyDescr : AdcDescr :=
  { pool := some { freeQ := [], readyQ := [mkBuf 1 4 1] },
    buf0 := some (mkBuf 0 4 1), buf1 := some (mkBuf 2 4 1), running := true }

/-- A concrete descriptor with an empty ready queue. -/
def wDrainedDescr : AdcDescr :=
  { pool := some { freeQ := [mkBuf 1 4 1], readyQ := [] },
    buf0 := some (mkBuf 0 4 1), buf1 := some (mkBuf 2 4 1), running := true }

/-- Witness for C10: unconfigured engine, a configured one with a ready
buffer, and a configured one with an empty ready queue. -/
theorem c10_read_witness :
    AdvADC.read initTable { adc_pins := [10], descr := none, adc_index := none } =
      (ReadResult.nullbuf, initTable) ∧
    AdvADC.available (initTable.set 0 wReadyDescr)
      { adc_pins := [10], descr := some 0, adc_index := none } = true ∧
    AdvADC.available (initTable.set 0 wDrainedDescr)
      { adc_pins := [10], descr := some 0, adc_index := none } = false := by
  refine ⟨?_, ?_, ?_⟩
  · exact (c10_read initTable _ 0 { freeQ := [], readyQ := [] } (mkBuf 0 4 1) []).1 rfl
  · exact ((c10_read (initTable.set 0 wReadyDescr)
        { adc_pins := [10], descr := some 0, adc_index := none }
        0 { freeQ := [], readyQ := [mkBuf 1 4 1] } (mkBuf 1 4 1) []).2.1
      rfl rfl rfl).1
  · exact ((c10_read (initTable.set 0 wDrainedDescr)
        { adc_pins := [10], descr := some 0, adc_index := none }
        0 { freeQ := [mkBuf 1 4 1], readyQ := [] } (mkBuf 1 4 1) []).2.2
      rfl rfl rfl).1

/-- **C8**: API misuse yields deterministic failures without side
effects: `start` before `begin` fails leaving the table untouched;
`begin` while the engine already owns a pool fails changing neither the
object nor the table; `end` clears the binding, after which `stop`,
`end`, `available`, `read` and `clear` all fail deterministically
(`read` returning the static null buffer) with no state change. -/
theorem c8_misuse (env : Env) (t : DescrTable) (o : AdvADC) (u : Fin 3) (p : DMAPool)
    (resolution ns nb : Nat) (sn : Bool) :
    (o.descr = none → o.start env t = (false, t)) ∧
    (o.descr = some u → (t.get u).pool = some p →
      o.begin env t resolution ns nb sn = ⟨false, o, t⟩) ∧
    (o.descr = some u → (o.endADC t).2.1.descr = none) ∧
    (o.descr = none →
      o.stop t = (false, t) ∧ o.endADC t = (false, o, t) ∧
      o.available t = false ∧ o.read t = (ReadResult.nullbuf, t) ∧ o.clearQ t = t) := by
  refine ⟨?_, ?_, ?_, ?_⟩
  · intro h
    unfold AdvADC.start
    rw [h]
  · intro ho hp
    unfold AdvADC.begin
    rw [if_pos]
    exact Or.inr ⟨u, ho, by rw [hp]; simp⟩
  · intro ho
    unfold AdvADC.endADC
    rw [ho]
  · intro h
    unfold AdvADC.stop AdvADC.endADC AdvADC.available AdvADC.read AdvADC.clearQ
    rw [h]
    simp

/-- Witness for C8 on concrete engines: a fresh unconfigured object and a
configured one. -/
theorem c8_misuse_witness :
    AdvADC.start scEnv initTable { adc_pins := [10], descr := none, adc_index := none } =
      (false, initTable) ∧
    AdvADC.begin scEnv wRunTable
      { adc_pins := [10, 11], descr := some 1, adc_index := some 1 } 2 4 3 false =
      ⟨false, { adc_pins := [10, 11], descr := some 1, adc_index := some 1 }, wRunTable⟩ ∧
    AdvADC.read initTable { adc_pins := [10], descr := none, adc_index := none } =
      (ReadResult.nullbuf, initTable) := by
  refine ⟨?_, ?_, ?_⟩
  · exact (c8_misuse scEnv initTable
      { adc_pins := [10], descr := none, adc_index := none }
      0 (mkPool 4 2 3) 2 4 3 false).1 rfl
  · exact (c8_misuse scEnv wRunTable
      { adc_pins := [10, 11], descr := some 1, adc_index := some 1 }
      1 (mkPool 4 2 3) 2 4 3 false).2.1 rfl rfl
  · exact ((c8_misuse scEnv initTable
      { adc_pins := [10], descr := none, adc_index := none }
      0 (mkPool 4 2 3) 2 4 3 false).2.2.2 rfl).2.2.2.1

/-- The secondary-channel routing loop preserves the pin count. -/
theorem routeRest_length (env : Env) (u : Fin 3) (l : List Nat) :
    (routeRest env u l).1.length = l.length := by
  induction l with
  | nil => rfl
  | cons p ps ih =>
    unfold routeRest
    cases routeAlt env u p adc_pin_alt <;> simp [ih]

/-- Routing environment where every HAL configuration succeeds except the
DMA setup step. -/
def c3Env : Env :=
  { pinmapADC := fun p => if p = 10 ∨ p = 11 ∨ p = 12 then some 0 else none,
    halDmaOk := false, halAdcOk := true, halStartDmaOk := true,
    halTimCfgOk := true, halTimStartOk := true, poolNewOk := true }

/-- The 3-channel `begin` call under the failing-DMA environment. -/
def c3Run : BeginResult := AdvADC.begin c3Env initTable scObj 2 50 8 false

/-- **C3** counterexample: when the hardware DMA-configuration step fails
*after* pool allocation, `begin` returns failure but the pool remains
allocated and bound to the unit (and the object keeps its descriptor
pointer) — refuting the claim that every failing `begin` retains no
resources. -/
theorem c3_pool_retained_on_hal_failure :
    c3Run.ok = false ∧ (c3Run.table.get 0).pool ≠ none ∧
    c3Run.obj.descr = some 0 := by
  refine ⟨by decide, by decide, by decide⟩

/-- **C3** (amended): failures up to and including pool allocation retain
nothing — an unroutable channel set (no free unit resolves for the first
channel) fails with the table untouched and the descriptor pointer
cleared, and a pool-allocation failure leaves nothing bound — but a
failing hardware-configuration step after pool allocation returns
failure with the pool still allocated and the unit still owned. -/
theorem c3_begin_failure_modes (env : Env) (t : DescrTable) (o : AdvADC)
    (p0 : Nat) (prest : List Nat) (resolution ns nb : Nat) (sn : Bool)
    (ho : o.descr = none) (hres : resolution < 5)
    (hpins : o.adc_pins = p0 :: prest) (hidx : o.adc_index = none) :
    (findAltAuto env t (clearAlt p0) adc_pin_alt = none →
      AdvADC.begin env t o resolution ns nb sn =
        ⟨false, { o with adc_pins := o.adc_pins.map clearAlt, descr := none }, t⟩) ∧
    (∀ u pin0, findAltAuto env t (clearAlt p0) adc_pin_alt = some (u, pin0) →
      (routeRest env u (prest.map clearAlt)).2 = prest.length →
      env.poolNewOk = false →
      AdvADC.begin env t o resolution ns nb sn =
        ⟨false,
          { o with
              adc_pins := pin0 :: (routeRest env u (prest.map clearAlt)).1,
              descr := some u },
          t⟩) ∧
    (∀ u pin0, findAltAuto env t (clearAlt p0) adc_pin_alt = some (u, pin0) →
      (routeRest env u (prest.map clearAlt)).2 = prest.length →
      env.poolNewOk = true → env.halDmaOk = false →
      (AdvADC.begin env t o resolution ns nb sn).ok = false ∧
      ((AdvADC.begin env t o resolution ns nb sn).table.get u).pool ≠ none) := by
  have hsane : ¬(resolution ≥ 5 ∨ ∃ u, o.descr = some u ∧ (t.get u).pool ≠ none) := by
    rintro (h | ⟨u, hu, _⟩)
    · omega
    · rw [ho] at hu; exact Option.noConfusion hu
  refine ⟨?_, ?_, ?_⟩
  · intro hfind
    unfold AdvADC.begin
    rw [if_neg hsane]
    simp only [hpins, List.map, hidx, resolveInstance, hfind]
  · intro u pin0 hfind hroute hpool
    unfold AdvADC.begin
    rw [if_neg hsane]
    simp only [hpins, List.map, hidx, resolveInstance, hfind, hpool]
    simp only [List.length_cons, routeRest_length, List.length_map]
    rw [if_neg (by rw [hroute]; omega)]
    simp
  · intro u pin0 hfind hroute hpool hdma
    unfold AdvADC.begin
    rw [if_neg hsane]
    simp only [hpins, List.map, hidx, resolveInstance, hfind, hpool, hdma]
    rw [if_neg (by
      simp only [List.length_cons, routeRest_length, List.length_map, hroute]
      omega)]
    constructor
    · simp
    · simp [get_set_self]

/-- Witness for the amended C3: the unroutable case on an unmapped pin,
the pool-allocation failure, and the concrete failing-DMA run. -/
theorem c3_begin_failure_modes_witness :
    AdvADC.begin c3Env initTable { adc_pins := [99], descr := none, adc_index := none }
      2 50 8 false =
      ⟨false, { adc_pins := [99], descr := none, adc_index := none }, initTable⟩ ∧
    (AdvADC.begin c3Env initTable scObj 2 50 8 false).ok = false ∧
    ((AdvADC.begin c3Env initTable scObj 2 50 8 false).table.get 0).pool ≠ none := by
  refine ⟨?_, ?_⟩
  · exact (c3_begin_failure_modes c3Env initTable
      { adc_pins := [99], descr := none, adc_index := none }
      99 [] 2 50 8 false rfl (by omega) rfl rfl).1 (by decide)
  · exact (c3_begin_failure_modes c3Env initTable scObj 10 [11, 12] 2 50 8 false
      rfl (by omega) rfl rfl).2.2 0 10 (by decide) (by decide) rfl rfl

/-- Writing a descriptor with the same pool back into the table preserves
every unit's pool. -/
theorem get_set_pool_run (t : DescrTable) (u v : Fin 3) (d : AdcDescr)
    (hd : d.pool = (t.get u).pool) :
    ((t.set u d).get v).pool = (t.get v).pool := by
  rcases eq_or_ne v u with rfl | hvu
  · rw [get_set_self, hd]
  · rw [get_set_other _ _ _ _ hvu]

/-- `start` touches only the timer bit: the pool of every unit is
unchanged. -/
theorem start_pool_eq (env : Env) (t : DescrTable) (o : AdvADC) (v : Fin 3) :
    ((AdvADC.start env t o).2.get v).pool = (t.get v).pool := by
  unfold AdvADC.start
  match ho : o.descr with
  | none => rfl
  | some u =>
    simp only
    repeat' split
    any_goals rfl
    all_goals exact get_set_pool_run t u v _ rfl

/-- The auto-selection scan only ever picks a unit whose descriptor is
free. -/
theorem findAltAuto_pool_none (env : Env) (t : DescrTable) (p : Nat) (l : List Nat)
    (w : Fin 3) (pin : Nat) (h : findAltAuto env t p l = some (w, pin)) :
    (t.get w).pool = none := by
  induction l with
  | nil => exact absurd h (by simp [findAltAuto])
  | cons a rest ih =>
    have h' : (match env.pinmapADC (p ||| a) with
        | none => none
        | some w' => if (t.get w').pool = none then some (w', p ||| a)
                     else findAltAuto env t p rest) = some (w, pin) := h
    cases hm : env.pinmapADC (p ||| a) with
    | none => exact absurd h' (by simp [hm])
    | some w' =>
      simp only [hm] at h'
      by_cases hw : (t.get w').pool = none
      · rw [if_pos hw] at h'
        obtain ⟨rfl, rfl⟩ : w' = w ∧ (p ||| a) = pin := by simpa using h'
        exact hw
      · rw [if_neg hw] at h'; exact ih h'

/-- A resolved instance always names a unit that was free at call time. -/
theorem resolveInstance_pool_none (env : Env) (t : DescrTable) (idx : Option (Fin 3))
    (p0 : Nat) (u : Fin 3) (pin0 : Nat) (rd : Option (Fin 3))
    (h : resolveInstance env t idx p0 = (some (u, pin0), rd)) :
    (t.get u).pool = none := by
  cases idx with
  | none =>
    simp only [resolveInstance] at h
    have h1 : findAltAuto env t p0 adc_pin_alt = some (u, pin0) := by
      have h2 := congrArg Prod.fst h
      simpa using h2
    exact findAltAuto_pool_none env t p0 adc_pin_alt u pin0 h1
  | some w =>
    simp only [resolveInstance] at h
    by_cases hw : (t.get w).pool = none
    · rw [if_neg (not_not_intro hw)] at h
      rcases hr : routeAlt env w p0 adc_pin_alt with - | pin
      · rw [hr] at h; exact absurd h (by simp)
      · rw [hr] at h
        obtain ⟨h1, -⟩ : (some (w, pin) : Option (Fin 3 × Nat)) = some (u, pin0) ∧
            (some w : Option (Fin 3)) = rd := by simpa using h
        obtain ⟨rfl, -⟩ : w = u ∧ pin = pin0 := by simpa using h1
        exact hw
    · rw [if_pos hw] at h
      exact absurd h (by simp)

/-- A successful `begin` (without auto-start) leaves the object bound to a
unit whose descriptor owns a pool. -/
theorem begin_ok_state (env : Env) (t : DescrTable) (o : AdvADC)
    (resolution ns nb : Nat) (r : BeginResult)
    (h : AdvADC.begin env t o resolution ns nb false = r) (hok : r.ok = true) :
    ∃ u, r.obj.descr = some u ∧ (r.table.get u).pool ≠ none := by
  unfold AdvADC.begin at h
  split at h
  · subst h; simp at hok
  rcases hpins : List.map clearAlt o.adc_pins with - | ⟨p0, prest⟩ <;>
    simp only [hpins] at h
  · subst h; simp at hok
  rcases hri : resolveInstance env t o.adc_index p0 with ⟨ro, rd⟩
  match ro, rd with
  | none, some w => simp only [hri] at h; subst h; simp at hok
  | none, none => simp only [hri] at h; subst h; simp at hok
  | some (u, pin0), rd =>
    simp only [hri] at h
    rcases hrr : routeRest env u prest with ⟨prest2, c⟩
    simp only [hrr] at h
    split at h
    · subst h; simp at hok
    split at h
    · subst h; simp at hok
    rcases ha1 : (mkPool ns (pin0 :: prest2).length nb).allocWrite with ⟨b0, p1⟩
    simp only [ha1] at h
    rcases ha2 : p1.allocWrite with ⟨b1, p2⟩
    simp only [ha2] at h
    split at h
    · subst h; simp at hok
    split at h
    · subst h; simp at hok
    rw [if_neg (by simp)] at h
    subst h
    exact ⟨u, rfl, by rw [get_set_self]; simp⟩

/-- `begin` never deallocates a pool: every unit that owned a pool before
the call still owns it afterwards, whatever the outcome. -/
theorem begin_preserves_pool (env : Env) (t : DescrTable) (o : AdvADC)
    (resolution ns nb : Nat) (sn : Bool) (r : BeginResult) (v : Fin 3) (pp : DMAPool)
    (h : AdvADC.begin env t o resolution ns nb sn = r)
    (hv : (t.get v).pool = some pp) :
    (r.table.get v).pool = some pp := by
  unfold AdvADC.begin at h
  split at h
  · subst h; exact hv
  rcases hpins : List.map clearAlt o.adc_pins with - | ⟨p0, prest⟩ <;>
    simp only [hpins] at h
  · subst h; exact hv
  rcases hri : resolveInstance env t o.adc_index p0 with ⟨ro, rd⟩
  match ro, rd with
  | none, some w => simp only [hri] at h; subst h; exact hv
  | none, none => simp only [hri] at h; subst h; exact hv
  | some (u, pin0), rd =>
    have hupool : (t.get u).pool = none := resolveInstance_pool_none env t _ p0 u pin0 rd hri
    have hvu : v ≠ u := by
      intro hvu
      rw [hvu, hupool] at hv
      exact Option.noConfusion hv
    simp only [hri] at h
    rcases hrr : routeRest env u prest with ⟨prest2, c⟩
    simp only [hrr] at h
    split at h
    · subst h; exact hv
    split at h
    · subst h; exact hv
    rcases ha1 : (mkPool ns (pin0 :: prest2).length nb).allocWrite with ⟨b0, p1⟩
    simp only [ha1] at h
    rcases ha2 : p1.allocWrite with ⟨b1, p2⟩
    simp only [ha2] at h
    split at h
    · subst h; rw [get_set_other _ _ _ _ hvu]; exact hv
    split at h
    · subst h; rw [get_set_other _ _ _ _ hvu]; exact hv
    split at h
    · subst h
      rw [start_pool_eq, get_set_other _ _ _ _ hvu]
      exact hv
    · subst h; rw [get_set_other _ _ _ _ hvu]; exact hv

/-- Routing environment for the dual-ADC scenario: pin 10 reaches unit 2
(index 1) and pin 20 reaches unit 3 (index 2); all HAL steps succeed. -/
def c4Env : Env :=
  { pinmapADC := fun p => if p = 10 then some 1 else if p = 20 then some 2 else none,
    halDmaOk := true, halAdcOk := true, halStartDmaOk := true,
    halTimCfgOk := true, halTimStartOk := true, poolNewOk := true }

/-- First dual instance: one channel, explicitly on unit 2. -/
def c4Adc1 : AdvADC := { adc_pins := [10], descr := none, adc_index := some 1 }

/-- Second dual instance: one channel, explicitly on unit 3. -/
def c4Adc2 : AdvADC := { adc_pins := [20], descr := none, adc_index := some 2 }

/-- The dual `begin` call on the wrong unit pairing. -/
def c4Run : DualBeginResult := dualBegin c4Env initTable false c4Adc1 c4Adc2 2 4 4

/-- **C4** counterexample: a dual `begin` whose two single-unit
configurations succeed on units 2 and 3 — the wrong master/secondary
pair — is rejected, but both units are merely stopped, not torn down:
their pools remain allocated, so both units are left *owned*, refuting
the claim that every failing dual `begin` leaves both units unowned. -/
theorem c4_reject_keeps_units_owned :
    c4Run.ok = false ∧
    (c4Run.table.get 1).pool ≠ none ∧ (c4Run.table.get 2).pool ≠ none := by
  refine ⟨by decide, by decide, by decide⟩

/-- **C4** (amended): `AdvancedADCDual::begin` with mismatched channel
counts fails before configuring either unit (nothing changes); when both
units configure but the resolved pair is not master unit 1 / secondary
unit 2, the call fails after merely stopping both units — each unit that
a successful inner `begin` bound keeps its allocated pool, so both
units remain owned until `end()`. -/
theorem c4_dual_failure_modes (env : Env) (t : DescrTable) (dm : Bool)
    (a1 a2 : AdvADC) (resolution ns nb : Nat) :
    (a1.channels ≠ a2.channels →
      dualBegin env t dm a1 a2 resolution ns nb = ⟨false, a1, a2, t, dm⟩) ∧
    (∀ r1 r2, a1.begin env t resolution ns nb false = r1 → r1.ok = true →
      a2.begin env r1.table resolution ns nb false = r2 → r2.ok = true →
      a1.channels = a2.channels →
      (r1.obj.id ≠ 1 ∨ r2.obj.id ≠ 2) →
      (dualBegin env t dm a1 a2 resolution ns nb).ok = false ∧
      (∃ u1, r1.obj.descr = some u1 ∧
        ((dualBegin env t dm a1 a2 resolution ns nb).table.get u1).pool ≠ none) ∧
      (∃ u2, r2.obj.descr = some u2 ∧
        ((dualBegin env t dm a1 a2 resolution ns nb).table.get u2).pool ≠ none)) := by
  constructor
  · intro hne
    unfold dualBegin
    rw [if_pos hne]
  · intro r1 r2 hr1 hok1 hr2 hok2 hch hid
    have hdb : dualBegin env t dm a1 a2 resolution ns nb =
        ⟨false, r1.obj, r2.obj,
          (r2.obj.stop (r1.obj.stop r2.table).2).2, dm⟩ := by
      unfold dualBegin
      rw [if_neg (by simp [hch])]
      simp only [hr1, hok1, Bool.not_true, Bool.false_eq_true, if_false, hr2, hok2]
      rw [if_pos hid]
    obtain ⟨u1, hu1, hp1⟩ := begin_ok_state env t a1 resolution ns nb r1 hr1 hok1
    obtain ⟨u2, hu2, hp2⟩ := begin_ok_state env r1.table a2 resolution ns nb r2 hr2 hok2
    obtain ⟨pp1, hpp1⟩ := Option.ne_none_iff_exists'.mp hp1
    have hp1' : (r2.table.get u1).pool = some pp1 :=
      begin_preserves_pool env r1.table a2 resolution ns nb false r2 u1 pp1 hr2 hpp1
    refine ⟨by rw [hdb], ⟨u1, hu1, ?_⟩, ⟨u2, hu2, ?_⟩⟩
    · rw [hdb]
      simp only
      rw [stop_pool_eq, stop_pool_eq, hp1']
      simp
    · rw [hdb]
      simp only
      rw [stop_pool_eq, stop_pool_eq]
      exact hp2

/-- Witness for the amended C4 at the concrete wrong-pairing run. -/
theorem c4_dual_failure_modes_witness :
    c4Run.ok = false ∧
    (∃ u1, (AdvADC.begin c4Env initTable c4Adc1 2 4 4 false).obj.descr = some u1 ∧
      (c4Run.table.get u1).pool ≠ none) ∧
    (∃ u2, (AdvADC.begin c4Env
        (AdvADC.begin c4Env initTable c4Adc1 2 4 4 false).table c4Adc2
        2 4 4 false).obj.descr = some u2 ∧
      (c4Run.table.get u2).pool ≠ none) :=
  (c4_dual_failure_modes c4Env initTable false c4Adc1 c4Adc2 2 4 4).2
    (AdvADC.begin c4Env initTable c4Adc1 2 4 4 false)
    (AdvADC.begin c4Env
      (AdvADC.begin c4Env initTable c4Adc1 2 4 4 false).table c4Adc2 2 4 4 false)
    rfl (by decide) rfl (by decide) (by decide) (by decide)

/-! ## The configured-engine transition system (for the pool invariant) -/

/-- Application-visible state of one configured engine: its descriptor
(pool plus the two armed slots) and the buffers the application currently
holds between `read()` and `release()`. -/
structure AppState where
  descr : AdcDescr
  held : List Buf
deriving Repr, DecidableEq

/-- The state `begin` leaves behind: a pool of `nb` fresh buffers of
which the first two are popped into the armed slots. -/
def mkConfigured (ns nc nb : Nat) : AppState :=
  let p := mkPool ns nc nb
  let r0 := p.allocWrite
  let r1 := r0.2.allocWrite
  ⟨{ pool := some r1.2, buf0 := r0.1, buf1 := r1.1, running := false }, []⟩

/-- The events that can touch a configured engine's pool: a completion
interrupt, the application reading a ready buffer
(`pool->alloc(DMA_BUFFER_READ)`), the application releasing a held
buffer (`SampleBuffer::release()`), `clear()` (`pool->flush()`), and
`stop()`. -/
inductive EngineStep : AppState → AppState → Prop
  | complete (ctRaw : Bool) (now : Nat) (s : AppState) :
      EngineStep s ⟨(HAL_ADC_ConvCpltCallback ctRaw now s.descr).1, s.held⟩
  | readB (s : AppState) (p : DMAPool) (b : Buf) (rest : List Buf) :
      s.descr.pool = some p → p.readyQ = b :: rest →
      EngineStep s ⟨{ s.descr with pool := some { p with readyQ := rest } }, s.held ++ [b]⟩
  | releaseB (s : AppState) (p : DMAPool) (b : Buf) (l1 l2 : List Buf) :
      s.descr.pool = some p → s.held = l1 ++ b :: l2 →
      EngineStep s ⟨{ s.descr with pool := some (p.releaseToFree b) }, l1 ++ l2⟩
  | clearB (s : AppState) (p : DMAPool) :
      s.descr.pool = some p →
      EngineStep s ⟨{ s.descr with pool := some p.flushQ }, s.held⟩
  | stopB (s : AppState) :
      EngineStep s ⟨{ s.descr with running := false }, s.held⟩

/-- Buffer-identity multiset of a buffer list. -/
def listIds (l : List Buf) : Multiset Nat := (l.map Buf.bid : List Nat)

/-- Buffer-identity multiset of an optional armed slot. -/
def optIds : Option Buf → Multiset Nat
  | some b => {b.bid}
  | none => 0

/-- Buffer-identity multiset of an optional pool (free and ready
queues). -/
def poolIds : Option DMAPool → Multiset Nat
  | some p => listIds p.freeQ + listIds p.readyQ
  | none => 0

/-- All buffer identities of an engine state: pool queues, armed slots,
application-held buffers. -/
def stateIds (s : AppState) : Multiset Nat :=
  poolIds s.descr.pool + optIds s.descr.buf0 + optIds s.descr.buf1 + listIds s.held

theorem listIds_nil : listIds [] = 0 := rfl

theorem listIds_cons (b : Buf) (l : List Buf) :
    listIds (b :: l) = {b.bid} + listIds l := by
  simp [listIds, Multiset.singleton_add, ← Multiset.cons_coe]

theorem listIds_append (l1 l2 : List Buf) :
    listIds (l1 ++ l2) = listIds l1 + listIds l2 := by
  simp [listIds, ← Multiset.coe_add]

/-- The conservation invariant: a pool and both armed slots are present,
and the identity multiset is exactly `{0, …, nb-1}`. -/
def PoolInv (nb : Nat) (s : AppState) : Prop :=
  (∃ p, s.descr.pool = some p) ∧ (∃ b0, s.descr.buf0 = some b0) ∧
  (∃ b1, s.descr.buf1 = some b1) ∧ stateIds s = Multiset.range nb

theorem range_add_two (m : Nat) :
    List.range (m + 2) = 0 :: 1 :: (List.range m).map (fun i => i + 2) := by
  rw [List.range_succ_eq_map, List.range_succ_eq_map]
  simp [List.map_map]

theorem mkPool_eq (ns nc m : Nat) :
    mkPool ns nc (m + 2) =
      { freeQ := mkBuf 0 ns nc :: mkBuf 1 ns nc ::
          (List.range m).map (fun i => mkBuf (i + 2) ns nc),
        readyQ := [] } := by
  unfold mkPool
  rw [range_add_two]
  simp [List.map_map]

theorem mkConfigured_eq (ns nc m : Nat) :
    mkConfigured ns nc (m + 2) =
      ⟨{ pool := some { freeQ := (List.range m).map (fun i => mkBuf (i + 2) ns nc),
                        readyQ := [] },
         buf0 := some (mkBuf 0 ns nc), buf1 := some (mkBuf 1 ns nc),
         running := false }, []⟩ := by
  unfold mkConfigured
  rw [mkPool_eq]
  rfl

theorem mkConfigured_inv (ns nc m : Nat) : PoolInv (m + 2) (mkConfigured ns nc (m + 2)) := by
  rw [mkConfigured_eq]
  refine ⟨⟨_, rfl⟩, ⟨_, rfl⟩, ⟨_, rfl⟩, ?_⟩
  show poolIds _ + optIds _ + optIds _ + listIds _ = _
  have hr : (Multiset.range (m + 2)) =
      {0} + ({1} + (((List.range m).map (fun i => i + 2) : List Nat) : Multiset Nat)) := by
    rw [show (Multiset.range (m + 2)) =
        ((List.range (m + 2) : List Nat) : Multiset Nat) from rfl,
      range_add_two, ← Multiset.cons_coe, ← Multiset.cons_coe,
      ← Multiset.singleton_add, ← Multiset.singleton_add]
  rw [hr]
  simp only [poolIds, optIds, listIds_nil, listIds, List.map_map, Function.comp_def,
    mkBuf, add_zero]
  simp [add_comm, add_left_comm, add_assoc]
  exact List.Perm.swap 0 1 _

/-- Every engine event preserves the conservation invariant. -/
theorem engineStep_inv (nb : Nat) (s s2 : AppState)
    (hs : PoolInv nb s) (h : EngineStep s s2) : PoolInv nb s2 := by
  obtain ⟨⟨p, hp⟩, ⟨b0, hb0⟩, ⟨b1, hb1⟩, hids⟩ := hs
  cases h with
  | complete ctRaw now s =>
    cases ctRaw with
    | true =>
      rcases hfq : p.freeQ with - | ⟨nbuf, restF⟩
      · have hres : (HAL_ADC_ConvCpltCallback true now s.descr).1 =
            s.descr.setSlot false (some { b0 with tstamp := now, discont := true }) := by
          unfold HAL_ADC_ConvCpltCallback
          simp only [Bool.not_true, AdcDescr.slot, Bool.false_eq_true, if_false,
            hp, hb0, hfq]
        refine ⟨⟨p, ?_⟩, ⟨{ b0 with tstamp := now, discont := true }, ?_⟩, ⟨b1, ?_⟩, ?_⟩
        · show (HAL_ADC_ConvCpltCallback true now s.descr).1.pool = some p
          rw [hres, pool_setSlot, hp]
        · show (HAL_ADC_ConvCpltCallback true now s.descr).1.buf0 = _
          rw [hres]; simp [AdcDescr.setSlot]
        · show (HAL_ADC_ConvCpltCallback true now s.descr).1.buf1 = some b1
          rw [hres]; simp [AdcDescr.setSlot, hb1]
        · show stateIds ⟨(HAL_ADC_ConvCpltCallback true now s.descr).1, s.held⟩ = _
          rw [← hids, hres]
          simp only [stateIds, AdcDescr.setSlot, Bool.false_eq_true, if_false,
            poolIds, optIds, hp, hb0, hb1]
      · have hres : (HAL_ADC_ConvCpltCallback true now s.descr).1 =
            { s.descr.setSlot false
                (some (if nbuf.channels > 1 then { nbuf with intrlvd := true } else nbuf)) with
              pool := some { freeQ := restF,
                             readyQ := p.readyQ ++ [{ b0 with tstamp := now }] } } := by
          unfold HAL_ADC_ConvCpltCallback
          simp only [Bool.not_true, AdcDescr.slot, Bool.false_eq_true, if_false,
            hp, hb0, hfq]
        refine
          ⟨⟨{ freeQ := restF, readyQ := p.readyQ ++ [{ b0 with tstamp := now }] }, ?_⟩,
            ⟨(if nbuf.channels > 1 then { nbuf with intrlvd := true } else nbuf), ?_⟩,
            ⟨b1, ?_⟩, ?_⟩
        · show (HAL_ADC_ConvCpltCallback true now s.descr).1.pool = _
          rw [hres]
        · show (HAL_ADC_ConvCpltCallback true now s.descr).1.buf0 = _
          rw [hres]; simp [AdcDescr.setSlot]
        · show (HAL_ADC_ConvCpltCallback true now s.descr).1.buf1 = some b1
          rw [hres]; simp [AdcDescr.setSlot, hb1]
        · show stateIds ⟨(HAL_ADC_ConvCpltCallback true now s.descr).1, s.held⟩ = _
          rw [← hids, hres]
          simp only [stateIds, AdcDescr.setSlot, Bool.false_eq_true, if_false,
            poolIds, optIds, hp, hb0, hb1, hfq, List.map_append, List.map_cons,
            ← Multiset.coe_add, ← Multiset.cons_coe, ← Multiset.singleton_add,
            apply_ite Buf.bid, ite_self]
          simp [listIds_cons, listIds_append, listIds_nil, add_comm, add_left_comm, add_assoc]
    | false =>
      rcases hfq : p.freeQ with - | ⟨nbuf, restF⟩
      · have hres : (HAL_ADC_ConvCpltCallback false now s.descr).1 =
            s.descr.setSlot true (some { b1 with tstamp := now, discont := true }) := by
          unfold HAL_ADC_ConvCpltCallback
          simp only [Bool.not_false, AdcDescr.slot, if_true, hp, hb1, hfq]
        refine ⟨⟨p, ?_⟩, ⟨b0, ?_⟩, ⟨{ b1 with tstamp := now, discont := true }, ?_⟩, ?_⟩
        · show (HAL_ADC_ConvCpltCallback false now s.descr).1.pool = some p
          rw [hres, pool_setSlot, hp]
        · show (HAL_ADC_ConvCpltCallback false now s.descr).1.buf0 = some b0
          rw [hres]; simp [AdcDescr.setSlot, hb0]
        · show (HAL_ADC_ConvCpltCallback false now s.descr).1.buf1 = _
          rw [hres]; simp [AdcDescr.setSlot]
        · show stateIds ⟨(HAL_ADC_ConvCpltCallback false now s.descr).1, s.held⟩ = _
          rw [← hids, hres]
          simp only [stateIds, AdcDescr.setSlot, if_true, poolIds, optIds, hp, hb0, hb1]
      · have hres : (HAL_ADC_ConvCpltCallback false now s.descr).1 =
            { s.descr.setSlot true
                (some (if nbuf.channels > 1 then { nbuf with intrlvd := true } else nbuf)) with
              pool := some { freeQ := restF,
                             readyQ := p.readyQ ++ [{ b1 with tstamp := now }] } } := by
          unfold HAL_ADC_ConvCpltCallback
          simp only [Bool.not_false, AdcDescr.slot, if_true, hp, hb1, hfq]
        refine
          ⟨⟨{ freeQ := restF, readyQ := p.readyQ ++ [{ b1 with tstamp := now }] }, ?_⟩,
            ⟨b0, ?_⟩,
            ⟨(if nbuf.channels > 1 then { nbuf with intrlvd := true } else nbuf), ?_⟩, ?_⟩
        · show (HAL_ADC_ConvCpltCallback false now s.descr).1.pool = _
          rw [hres]
        · show (HAL_ADC_ConvCpltCallback false now s.descr).1.buf0 = some b0
          rw [hres]; simp [AdcDescr.setSlot, hb0]
        · show (HAL_ADC_ConvCpltCallback false now s.descr).1.buf1 = _
          rw [hres]; simp [AdcDescr.setSlot]
        · show stateIds ⟨(HAL_ADC_ConvCpltCallback false now s.descr).1, s.held⟩ = _
          rw [← hids, hres]
          simp only [stateIds, AdcDescr.setSlot, if_true, poolIds, optIds,
            hp, hb0, hb1, hfq, List.map_append, List.map_cons,
            ← Multiset.coe_add, ← Multiset.cons_coe, ← Multiset.singleton_add,
            apply_ite Buf.bid, ite_self]
          simp [listIds_cons, listIds_append, listIds_nil, add_comm, add_left_comm, add_assoc]
  | readB s p2 b rest hp2 hr =>
    rw [hp] at hp2
    obtain rfl : p = p2 := Option.some.injEq .. ▸ hp2.symm ▸ rfl
    refine ⟨⟨_, rfl⟩, ⟨_, hb0⟩, ⟨_, hb1⟩, ?_⟩
    rw [← hids]
    simp only [stateIds, poolIds, optIds, hp, hb0, hb1, hr,
      List.map_append, List.map_cons, ← Multiset.coe_add, ← Multiset.cons_coe,
      ← Multiset.singleton_add]
    simp [listIds_cons, listIds_append, listIds_nil, add_comm, add_left_comm, add_assoc]
  | releaseB s p2 b l1 l2 hp2 hh =>
    rw [hp] at hp2
    obtain rfl : p = p2 := Option.some.injEq .. ▸ hp2.symm ▸ rfl
    refine ⟨⟨_, rfl⟩, ⟨_, hb0⟩, ⟨_, hb1⟩, ?_⟩
    rw [← hids]
    simp only [stateIds, DMAPool.releaseToFree, poolIds, optIds, hp, hb0, hb1, hh,
      List.map_append, List.map_cons, ← Multiset.coe_add, ← Multiset.cons_coe,
      ← Multiset.singleton_add]
    simp [listIds_cons, listIds_append, listIds_nil, add_comm, add_left_comm, add_assoc]
  | clearB s p2 hp2 =>
    rw [hp] at hp2
    obtain rfl : p = p2 := Option.some.injEq .. ▸ hp2.symm ▸ rfl
    refine ⟨⟨_, rfl⟩, ⟨_, hb0⟩, ⟨_, hb1⟩, ?_⟩
    rw [← hids]
    simp only [stateIds, DMAPool.flushQ, poolIds, optIds, hp, hb0, hb1,
      List.map_append, ← Multiset.coe_add, List.map_nil, Multiset.coe_nil, add_zero]
    simp [listIds_cons, listIds_append, listIds_nil, add_comm, add_left_comm, add_assoc]
  | stopB s =>
    exact ⟨⟨_, hp⟩, ⟨_, hb0⟩, ⟨_, hb1⟩, by rw [← hids]; rfl⟩

/-- Each completion either moves exactly one buffer from the head of the
free queue into the armed slot and appends exactly one (the finished one)
to the ready queue, or leaves the pool untouched. -/
theorem handler_pool_dichotomy (d : AdcDescr) (ctRaw : Bool) (now : Nat) :
    (HAL_ADC_ConvCpltCallback ctRaw now d).1.pool = d.pool ∨
    ∃ p pb, d.pool = some p ∧ p.freeQ ≠ [] ∧
      (HAL_ADC_ConvCpltCallback ctRaw now d).1.pool =
        some { freeQ := p.freeQ.tail, readyQ := p.readyQ ++ [pb] } := by
  rcases hp : d.pool with - | p
  · left
    unfold HAL_ADC_ConvCpltCallback
    simp [hp]
  · rcases hs : d.slot (!ctRaw) with - | b
    · left
      unfold HAL_ADC_ConvCpltCallback
      simp [hp, hs]
    · rcases hfq : p.freeQ with - | ⟨nbuf, restF⟩
      · left
        unfold HAL_ADC_ConvCpltCallback
        simp only [hp, hs, hfq]
        rw [pool_setSlot, hp]
      · right
        refine ⟨p, { b with tstamp := now }, rfl, by simp [hfq], ?_⟩
        unfold HAL_ADC_ConvCpltCallback
        simp only [hp, hs, hfq, List.tail_cons]

/-- **C5** (amended): in every reachable state of a configured engine
with pool size `N = m + 2`, the pool and both armed slots exist,
`|free| + |ready| + |armed(2)| + |application-held| = N`, and no buffer
identity appears in two places (free queue, ready queue, armed slots,
application possession are pairwise disjoint); moreover every completion
either publishes exactly one buffer and arms exactly one fresh buffer
from the free queue, or changes no queue membership at all.  The claim's
equation without the application-held term fails once the application
holds a buffer. -/
theorem c5_conservation (ns nc m : Nat) (s : AppState)
    (h : Relation.ReflTransGen EngineStep (mkConfigured ns nc (m + 2)) s) :
    (∃ p b0 b1, s.descr.pool = some p ∧ s.descr.buf0 = some b0 ∧
      s.descr.buf1 = some b1 ∧
      p.freeQ.length + p.readyQ.length + 2 + s.held.length = m + 2 ∧
      ((p.freeQ ++ p.readyQ ++ [b0, b1] ++ s.held).map Buf.bid).Nodup) ∧
    (∀ ctRaw now,
      (HAL_ADC_ConvCpltCallback ctRaw now s.descr).1.pool = s.descr.pool ∨
      ∃ p2 pb, s.descr.pool = some p2 ∧ p2.freeQ ≠ [] ∧
        (HAL_ADC_ConvCpltCallback ctRaw now s.descr).1.pool =
          some { freeQ := p2.freeQ.tail, readyQ := p2.readyQ ++ [pb] }) := by
  have hinv : PoolInv (m + 2) s := by
    induction h with
    | refl => exact mkConfigured_inv ns nc m
    | tail hab hbc ih => exact engineStep_inv _ _ _ ih hbc
  obtain ⟨⟨p, hp⟩, ⟨b0, hb0⟩, ⟨b1, hb1⟩, hids⟩ := hinv
  have hsum : ((p.freeQ ++ p.readyQ ++ [b0, b1] ++ s.held).map Buf.bid : Multiset Nat) =
      stateIds s := by
    simp only [stateIds, poolIds, optIds, hp, hb0, hb1, listIds,
      List.map_append, ← Multiset.coe_add, List.map_cons, List.map_nil,
      ← Multiset.cons_coe, ← Multiset.singleton_add, Multiset.coe_nil, add_zero]
    simp [add_comm, add_left_comm, add_assoc]
    exact List.Perm.append_left _ (List.Perm.swap _ _ _)
  refine ⟨⟨p, b0, b1, hp, hb0, hb1, ?_, ?_⟩, fun ctRaw now =>
    handler_pool_dichotomy s.descr ctRaw now⟩
  · have hcard := congrArg Multiset.card hids
    simp only [stateIds, poolIds, optIds, hp, hb0, hb1, listIds,
      Multiset.card_add, Multiset.coe_card, List.length_map,
      Multiset.card_singleton, Multiset.card_range] at hcard
    omega
  · have hnd : (stateIds s).Nodup := by
      rw [hids]
      exact Multiset.nodup_range _
    rw [← hsum] at hnd
    exact Multiset.coe_nodup.mp hnd

/-- Witness for the amended C5 at the freshly configured 5-buffer
engine. -/
theorem c5_conservation_witness :
    (∃ p b0 b1, (mkConfigured 4 2 5).descr.pool = some p ∧
      (mkConfigured 4 2 5).descr.buf0 = some b0 ∧
      (mkConfigured 4 2 5).descr.buf1 = some b1 ∧
      p.freeQ.length + p.readyQ.length + 2 + (mkConfigured 4 2 5).held.length = 3 + 2 ∧
      ((p.freeQ ++ p.readyQ ++ [b0, b1] ++ (mkConfigured 4 2 5).held).map Buf.bid).Nodup) ∧
    (∀ ctRaw now,
      (HAL_ADC_ConvCpltCallback ctRaw now (mkConfigured 4 2 5).descr).1.pool =
        (mkConfigured 4 2 5).descr.pool ∨
      ∃ p2 pb, (mkConfigured 4 2 5).descr.pool = some p2 ∧ p2.freeQ ≠ [] ∧
        (HAL_ADC_ConvCpltCallback ctRaw now (mkConfigured 4 2 5).descr).1.pool =
          some { freeQ := p2.freeQ.tail, readyQ := p2.readyQ ++ [pb] }) :=
  c5_conservation 4 2 3 (mkConfigured 4 2 5) Relation.ReflTransGen.refl

/-- Initial state of the counterexample run: 1 channel, 1 sample per
channel, 3 buffers. -/
def c5S0 : AppState := mkConfigured 1 1 3

/-- State after the first completion (slot 0 finished at tick 5). -/
def c5S1 : AppState := ⟨(HAL_ADC_ConvCpltCallback true 5 c5S0.descr).1, c5S0.held⟩

/-- The buffer the first completion publishes. -/
def c5Bts : Buf :=
  { bid := 0, n_channels := 1, n_samples := 1, intrlvd := false,
    discont := false, tstamp := 5 }

/-- The empty pool left after the application reads that buffer. -/
def c5EmptyPool : DMAPool := { freeQ := [], readyQ := [] }

/-- State after the application reads the published buffer and holds it
(before releasing). -/
def c5S2 : AppState :=
  ⟨{ c5S1.descr with pool := some c5EmptyPool }, c5S1.held ++ [c5Bts]⟩

/-- **C5** counterexample: with pool size `N = 3` the engine reaches — by
one completion and one `read()` — a state where the application holds a
buffer and `|free| + |ready| + |armed| = 0 + 0 + 2 = 2 ≠ 3 = N`,
refuting the claimed equation (which omits the application-held term). -/
theorem c5_sum_fails_when_app_holds :
    Relation.ReflTransGen EngineStep (mkConfigured 1 1 3) c5S2 ∧
    c5S2.descr.pool = some c5EmptyPool ∧
    c5EmptyPool.freeQ.length + c5EmptyPool.readyQ.length + 2 = 2 ∧
    (2 : Nat) ≠ 3 := by
  refine ⟨?_, rfl, rfl, by decide⟩
  have h1 : EngineStep c5S0 c5S1 := EngineStep.complete true 5 c5S0
  have h2 : EngineStep c5S1 c5S2 :=
    EngineStep.readB c5S1 { freeQ := [], readyQ := [c5Bts] } c5Bts [] rfl rfl
  exact Relation.ReflTransGen.tail
    (Relation.ReflTransGen.tail Relation.ReflTransGen.refl h1) h2

/-- A `begin` call on a fresh object with an explicit free unit, routable
pins and a working HAL succeeds, arming the first two pool buffers. -/
theorem begin_success (env : Env) (t : DescrTable) (o : AdvADC) (u : Fin 3)
    (p0 pin0 : Nat) (prest : List Nat) (resolution ns m : Nat)
    (ho : o.descr = none) (hres : resolution < 5)
    (hpins : o.adc_pins = p0 :: prest) (hidx : o.adc_index = some u)
    (hfreeU : (t.get u).pool = none)
    (hroute0 : routeAlt env u (clearAlt p0) adc_pin_alt = some pin0)
    (hrouteR : (routeRest env u (prest.map clearAlt)).2 = prest.length)
    (hpool : env.poolNewOk = true) (hdma : env.halDmaOk = true)
    (hadc : env.halAdcOk = true) :
    AdvADC.begin env t o resolution ns (m + 2) false =
      ⟨true,
        { o with
            adc_pins := pin0 :: (routeRest env u (prest.map clearAlt)).1,
            descr := some u },
        t.set u
          { pool := some
              { freeQ := (List.range m).map (fun i => mkBuf (i + 2) ns (prest.length + 1)),
                readyQ := [] },
            buf0 := some (mkBuf 0 ns (prest.length + 1)),
            buf1 := some (mkBuf 1 ns (prest.length + 1)),
            running := (t.get u).running }⟩ := by
  have hsane : ¬(resolution ≥ 5 ∨ ∃ w, o.descr = some w ∧ (t.get w).pool ≠ none) := by
    rintro (hc | ⟨w, hw, -⟩)
    · omega
    · rw [ho] at hw; exact Option.noConfusion hw
  have hlen2 : (routeRest env u (prest.map clearAlt)).1.length = prest.length := by
    rw [routeRest_length, List.length_map]
  unfold AdvADC.begin
  rw [if_neg hsane]
  simp only [hpins, List.map, resolveInstance, hidx, hfreeU, ne_eq,
    not_true_eq_false, not_false_eq_true, if_false, ite_false, hroute0]
  rw [if_neg (by simp only [List.length_cons, hlen2, hrouteR]; omega)]
  simp only [hpool, hdma, hadc, Bool.not_true, Bool.false_eq_true, if_false]
  rw [show (pin0 :: (routeRest env u (prest.map clearAlt)).1).length =
      prest.length + 1 by simp [hlen2]]
  rw [mkPool_eq]
  simp only [DMAPool.allocWrite]

/-- Witness check that `begin_success` applies in the concrete 3-channel
environment (unit 1, pins 10/11/12). -/
theorem begin_success_witness :
    AdvADC.begin scEnv initTable
      { adc_pins := [10, 11, 12], descr := none, adc_index := some 0 } 2 50 8 false =
      ⟨true,
        { adc_pins := 10 ::
            (routeRest scEnv 0 ([11, 12].map clearAlt)).1,
          descr := some 0, adc_index := some 0 },
        initTable.set 0
          { pool := some
              { freeQ := (List.range 6).map (fun i => mkBuf (i + 2) 50 (2 + 1)),
                readyQ := [] },
            buf0 := some (mkBuf 0 50 (2 + 1)),
            buf1 := some (mkBuf 1 50 (2 + 1)),
            running := (initTable.get 0).running }⟩ :=
  begin_success scEnv initTable
    { adc_pins := [10, 11, 12], descr := none, adc_index := some 0 }
    0 10 10 [11, 12] 2 50 6 rfl (by omega) rfl rfl rfl (by decide) (by decide)
    rfl rfl rfl

/-- `start` on a configured engine with a working HAL succeeds and only
sets the timer-running bit. -/
theorem start_success (env : Env) (t : DescrTable) (o : AdvADC) (u : Fin 3)
    (p : DMAPool) (ho : o.descr = some u) (hp : (t.get u).pool = some p)
    (hsd : env.halStartDmaOk = true) (htc : env.halTimCfgOk = true)
    (hts : env.halTimStartOk = true) :
    AdvADC.start env t o = (true, t.set u { t.get u with running := true }) := by
  unfold AdvADC.start
  rw [ho]
  simp only [hp, hsd, htc, hts, Bool.not_true, Bool.false_eq_true, if_false]
  simp

/-- After a completion on a configured engine whose free queue is
non-empty, `available()` is true: the handler published the finished
buffer. -/
theorem available_after_completion (t : DescrTable) (o : AdvADC) (u : Fin 3)
    (p : DMAPool) (b0 : Buf) (now : Nat)
    (ho : o.descr = some u) (hp : (t.get u).pool = some p)
    (hb0 : (t.get u).buf0 = some b0) (hfq : p.freeQ ≠ []) :
    AdvADC.available (t.set u (HAL_ADC_ConvCpltCallback true now (t.get u)).1) o = true := by
  rcases hfq2 : p.freeQ with - | ⟨nbuf, restF⟩
  · exact absurd hfq2 hfq
  have hres : (HAL_ADC_ConvCpltCallback true now (t.get u)).1 =
      { (t.get u).setSlot false
          (some (if nbuf.channels > 1 then { nbuf with intrlvd := true } else nbuf)) with
        pool := some { freeQ := restF,
                       readyQ := p.readyQ ++ [{ b0 with tstamp := now }] } } := by
    unfold HAL_ADC_ConvCpltCallback
    simp only [Bool.not_true, AdcDescr.slot, Bool.false_eq_true, if_false, hp, hb0, hfq2]
  unfold AdvADC.available
  rw [ho]
  simp only [get_set_self, hres]
  simp [DMAPool.readable]

/-- **C7**: `end()` on a configured engine succeeds, releases both armed
buffers, deallocates the pool and unbinds the unit; `start()` after it
fails; a subsequent `begin()` (same explicit unit, routable pins,
working HAL, pool of at least 3 buffers) succeeds, `start()` then
succeeds, and after the next completion `available()` is true — buffers
are consumable again. -/
theorem c7_end_then_reconfigure (env : Env) (t : DescrTable) (o : AdvADC) (u : Fin 3)
    (pl : DMAPool) (p0 pin0 : Nat) (prest : List Nat) (resolution ns m now : Nat)
    (ho : o.descr = some u) (hp : (t.get u).pool = some pl)
    (hidx : o.adc_index = some u) (hpins : o.adc_pins = p0 :: prest)
    (hres : resolution < 5)
    (hroute0 : routeAlt env u (clearAlt p0) adc_pin_alt = some pin0)
    (hrouteR : (routeRest env u (prest.map clearAlt)).2 = prest.length)
    (hpool : env.poolNewOk = true) (hdma : env.halDmaOk = true)
    (hadc : env.halAdcOk = true) (hsd : env.halStartDmaOk = true)
    (htc : env.halTimCfgOk = true) (hts : env.halTimStartOk = true) :
    (o.endADC t).1 = true ∧
    (((o.endADC t).2.2).get u).pool = none ∧
    (((o.endADC t).2.2).get u).buf0 = none ∧
    (((o.endADC t).2.2).get u).buf1 = none ∧
    ((o.endADC t).2.1).descr = none ∧
    (AdvADC.start env (o.endADC t).2.2 (o.endADC t).2.1).1 = false ∧
    (AdvADC.begin env (o.endADC t).2.2 (o.endADC t).2.1 resolution ns (m + 1 + 2)
      false).ok = true ∧
    (AdvADC.start env
      (AdvADC.begin env (o.endADC t).2.2 (o.endADC t).2.1 resolution ns (m + 1 + 2)
        false).table
      (AdvADC.begin env (o.endADC t).2.2 (o.endADC t).2.1 resolution ns (m + 1 + 2)
        false).obj).1 = true ∧
    AdvADC.available
      ((AdvADC.start env
          (AdvADC.begin env (o.endADC t).2.2 (o.endADC t).2.1 resolution ns (m + 1 + 2)
            false).table
          (AdvADC.begin env (o.endADC t).2.2 (o.endADC t).2.1 resolution ns (m + 1 + 2)
            false).obj).2.set u
        (HAL_ADC_ConvCpltCallback true now
          ((AdvADC.start env
              (AdvADC.begin env (o.endADC t).2.2 (o.endADC t).2.1 resolution ns
                (m + 1 + 2) false).table
              (AdvADC.begin env (o.endADC t).2.2 (o.endADC t).2.1 resolution ns
                (m + 1 + 2) false).obj).2.get u)).1)
      (AdvADC.begin env (o.endADC t).2.2 (o.endADC t).2.1 resolution ns (m + 1 + 2)
        false).obj = true := by
  have hEc : o.endADC t = (true, { o with descr := none },
      t.set u { pool := none, buf0 := none, buf1 := none, running := false }) := by
    unfold AdvADC.endADC
    rw [ho]
    rfl
  have hBS := begin_success env
    (t.set u { pool := none, buf0 := none, buf1 := none, running := false })
    { o with descr := none } u p0 pin0 prest resolution ns (m + 1)
    rfl hres hpins hidx (by rw [get_set_self]) hroute0 hrouteR hpool hdma hadc
  have hST := start_success env
    ((t.set u { pool := none, buf0 := none, buf1 := none, running := false }).set u
      { pool := some
          { freeQ := (List.range (m + 1)).map
              (fun i => mkBuf (i + 2) ns (prest.length + 1)),
            readyQ := [] },
        buf0 := some (mkBuf 0 ns (prest.length + 1)),
        buf1 := some (mkBuf 1 ns (prest.length + 1)),
        running := ((t.set u
          { pool := none, buf0 := none, buf1 := none, running := false }).get u).running })
    { o with adc_pins := pin0 :: (routeRest env u (prest.map clearAlt)).1, descr := some u }
    u _ rfl (by rw [get_set_self]) hsd htc hts
  refine ⟨by rw [hEc], by rw [hEc]; rw [get_set_self], by rw [hEc]; rw [get_set_self],
    by rw [hEc]; rw [get_set_self], by rw [hEc], by rw [hEc]; rfl, ?_, ?_, ?_⟩
  · rw [hEc]
    simp only
    rw [hBS]
  · rw [hEc]
    simp only
    rw [hBS]
    simp only
    rw [hST]
  · rw [hEc]
    simp only
    rw [hBS]
    simp only
    rw [hST]
    simp only
    refine available_after_completion _ _ u
      { freeQ := (List.range (m + 1)).map (fun i => mkBuf (i + 2) ns (prest.length + 1)),
        readyQ := [] }
      (mkBuf 0 ns (prest.length + 1)) now rfl ?_ ?_ ?_
    · simp only [get_set_self]
    · simp only [get_set_self]
    · simp [List.range_succ_eq_map]

/-- A concrete 3-channel object bound to unit 1 (index 0). -/
def c7Obj : AdvADC := { adc_pins := [10, 11, 12], descr := some 0, adc_index := some 0 }

/-- A concrete table with unit 1 (index 0) configured and running. -/
def c7Table : DescrTable :=
  initTable.set 0
    { pool := some (mkPool 4 2 3), buf0 := some (mkBuf 0 4 2),
      buf1 := some (mkBuf 1 4 2), running := true }

/-- Witness for C7 on the concrete engine: `end` succeeds, `start`
afterwards fails, re-`begin` succeeds. -/
theorem c7_end_then_reconfigure_witness :
    (AdvADC.endADC c7Table c7Obj).1 = true ∧
    (AdvADC.start scEnv (AdvADC.endADC c7Table c7Obj).2.2
      (AdvADC.endADC c7Table c7Obj).2.1).1 = false ∧
    (AdvADC.begin scEnv (AdvADC.endADC c7Table c7Obj).2.2
      (AdvADC.endADC c7Table c7Obj).2.1 2 50 (0 + 1 + 2) false).ok = true := by
  have h := c7_end_then_reconfigure scEnv c7Table c7Obj 0 (mkPool 4 2 3)
    10 10 [11, 12] 2 50 0 7 rfl rfl rfl rfl (by omega)
    (by decide) (by decide) rfl rfl rfl rfl rfl rfl
  exact ⟨h.1, h.2.2.2.2.2.1, h.2.2.2.2.2.2.1⟩

end AdvancedAnalog
